import Mathlib

/-!
Verification of the spreadsheet-backed todo-list repository
(`sheets_helper.py` and the sorting logic of `app.py`).

The backing worksheet is modelled as the matrix of cell values returned by
`worksheet.get_all_values()`: a `List (List String)` whose first row is the
header row.  Rows may be ragged (trailing empty cells omitted), exactly the
shape the Python code defends against with its `len(row) > k` checks.
-/

namespace TodoSheets

/-- One task dictionary, as built by `get_all_todos` in `sheets_helper.py`. -/
structure Todo where
  id : String
  row : Nat
  title : String
  content : String
  due_date : String
  priority : String
  created_at : String
  status : String
deriving DecidableEq, Repr

/-- Building one task dict from a data row (`sheets_helper.py` lines 227-244):
each field is `row[k]` when the row is long enough, otherwise the default;
priority defaults to `"中"`, every other field to `""`. -/
def mkTodo (r : List String) (i : Nat) : Todo :=
  { id := r.headD ""
    row := i
    title := r.getD 1 ""
    content := r.getD 2 ""
    due_date := r.getD 3 ""
    priority := r.getD 4 "中"
    created_at := r.getD 5 ""
    status := r.getD 6 "" }

/-- The row loop of `get_all_todos` (lines 221-244): rows are numbered from 2,
and a row is skipped when it is empty or its first cell (the id) is empty. -/
def rowsToTodos : List (List String) → Nat → List Todo
  | [], _ => []
  | r :: rest, i =>
    if r.headD "" = "" then rowsToTodos rest (i + 1)
    else mkTodo r i :: rowsToTodos rest (i + 1)

/-- `get_all_todos` applied to the matrix of worksheet values (lines 211-250):
an empty or header-only sheet yields `[]`, otherwise the data rows (row 2
onward) are parsed. -/
def get_all_todos (allValues : List (List String)) : List Todo :=
  if allValues.length ≤ 1 then [] else rowsToTodos (allValues.drop 1) 2

/-- `get_all_todos_filtered` (lines 344-364): `none` keeps tasks whose status
is empty or different from `"完了"`, `some "完了"` keeps exactly the completed
ones, and any other argument (the code passes `"all"`) keeps everything. -/
def get_all_todos_filtered (status_filter : Option String) (todos : List Todo) : List Todo :=
  match status_filter with
  | none => todos.filter (fun t => (t.status == "") || !(t.status == "完了"))
  | some s => if s = "完了" then todos.filter (fun t => t.status == "完了") else todos

/-- Python `str.isdigit` restricted to ASCII digits: true iff the string is
nonempty and all characters are decimal digits. -/
def pyIsdigit (s : String) : Bool :=
  !s.data.isEmpty && s.data.all Char.isDigit

/-- One step of Python `int()` over a digit string. -/
def pyStep (v : Nat) (c : Char) : Nat :=
  v * 10 + (c.toNat - 48)

/-- Python `int()` on a string of decimal digits. -/
def pyInt (s : String) : Nat :=
  s.data.foldl pyStep 0

/-- Decimal digits of `n`, most significant first, prepended to `acc`
(the digit list produced by Python `str()` on a nonnegative integer).
`fuel` bounds the recursion depth; any `fuel ≥ n / 10` is enough. -/
def toDecAux : Nat → Nat → List Char → List Char
  | 0, n, acc => Char.ofNat (48 + n % 10) :: acc
  | fuel + 1, n, acc =>
    if n < 10 then Char.ofNat (48 + n % 10) :: acc
    else toDecAux fuel (n / 10) (Char.ofNat (48 + n % 10) :: acc)

/-- Python `str()` on a natural number. -/
def pyStr (n : Nat) : String :=
  String.mk (toDecAux n n [])

/-- Python `max()` over a list of numbers: raises `ValueError` on an empty
sequence, otherwise returns the maximum. -/
def pyMax : List Nat → Except String Nat
  | [] => .error "max() arg is an empty sequence"
  | x :: xs => .ok (xs.foldl Nat.max x)

/-- The generator `int(todo["id"]) for todo in todos if todo["id"].isdigit()`
from `add_todo` (line 274). -/
def digit_ids (todos : List Todo) : List Nat :=
  (todos.filter (fun t => pyIsdigit t.id)).map (fun t => pyInt t.id)

/-- The new-id computation of `add_todo` (lines 272-277): `"1"` when no tasks
exist, otherwise `str(max(numeric ids) + 1)`; `max` raises when every id is
non-numeric. -/
def newId (todos : List Todo) : Except String String :=
  if todos.isEmpty then .ok "1"
  else
    match pyMax (digit_ids todos) with
    | .ok m => .ok (pyStr (m + 1))
    | .error e => .error e

/-- The full 7-column header written by the schema-repair code
(`sheets_helper.py` line 135 and elsewhere). -/
def SCHEMA : List String :=
  ["ID", "タイトル", "内容", "期日", "重要度", "作成日時", "ステータス"]

/-- `worksheet.row_values(1)` drops trailing empty cells. -/
def trimTrailingEmpty (r : List String) : List String :=
  (r.reverse.dropWhile (fun c => c = "")).reverse

/-- A single header write issued by the repair code: either the full
`A1:G1` rewrite with `SCHEMA`, or one cell at 1-based column `col`. -/
inductive HeaderWrite where
  | full
  | cell (col : Nat) (v : String)
deriving DecidableEq, Repr

/-- The header-repair decision tree of `get_or_create_spreadsheet`
(lines 130-160), transcribed branch by branch; the input is the value of
`worksheet.row_values(1)`, the output the list of writes issued, in order. -/
def repairWrites (h : List String) : List HeaderWrite :=
  if h.isEmpty then [.full]
  else if h.headD "" ≠ "ID" ∨ h.length < 7 then
    if h.length < 7 then
      if h.length < 5 then [.full]
      else if h.length < 6 then [.full]
      else
        [.cell 7 "ステータス"] ++
          (if h.length < 5 ∨ h.getD 4 "" ≠ "重要度" then [.cell 5 "重要度"] else [])
    else
      if h.headD "" ≠ "ID" then [.full]
      else
        (if h.length < 5 ∨ h.getD 4 "" ≠ "重要度" then [.cell 5 "重要度"] else []) ++
          (if h.length < 7 ∨ h.getD 6 "" ≠ "ステータス" then [.cell 7 "ステータス"] else [])
  else []

/-- Pad a row with empty cells up to length `n`. -/
def padTo (r : List String) (n : Nat) : List String :=
  r ++ List.replicate (n - r.length) ""

/-- Effect of one header write on the header row: `A1:G1` overwrites the
first 7 cells, a single-cell write overwrites (and if needed creates) that
cell. -/
def applyWrite (r : List String) : HeaderWrite → List String
  | .full => SCHEMA ++ r.drop 7
  | .cell c v => (padTo r c).set (c - 1) v

/-- The header row after schema repair, starting from the as-read header. -/
def repairedHeader (h : List String) : List String :=
  (repairWrites h).foldl applyWrite h

/-- Row 1 of the worksheet after schema resolution. -/
def repairRow1 (row1 : List String) : List String :=
  repairedHeader (trimTrailingEmpty row1)

/-- `get_or_create_spreadsheet` as it acts on the worksheet contents: only
row 1 is touched (all repair writes target `A1:G1`, `E1`, `G1`); on a
worksheet with no rows the full-header write creates row 1. -/
def resolveStore : List (List String) → List (List String)
  | [] => [repairRow1 []]
  | r :: rest => repairRow1 r :: rest

/-- `add_todo` (lines 256-296): resolve the store, list all tasks, compute
the new id (which can raise), then append
`[new_id, title, content, due_date, priority, created_at, ""]`.
`created_at` (`datetime.now()` in the source) is passed as an argument. -/
def add_todo (store : List (List String)) (title content due_date priority created_at : String) :
    Except String (String × List (List String)) :=
  match newId (get_all_todos_filtered (some "all") (get_all_todos (resolveStore store))) with
  | .error e => .error e
  | .ok nid =>
      .ok (nid, resolveStore store ++ [[nid, title, content, due_date, priority, created_at, ""]])

/-- Arguments of one `add_todo` call (the timestamp included). -/
structure AddArgs where
  title : String
  content : String
  due_date : String
  priority : String
  created_at : String

/-- A sequence of `add_todo` calls with no other mutation interleaved; the
cache is cleared by each add, so every call re-resolves and re-reads.
Returns the assigned ids in order together with the final store. -/
def addChain : List (List String) → List AddArgs → Except String (List String × List (List String))
  | store, [] => .ok ([], store)
  | store, a :: rest =>
    match add_todo store a.title a.content a.due_date a.priority a.created_at with
    | .error e => .error e
    | .ok (nid, s2) =>
      match addChain s2 rest with
      | .error e => .error e
      | .ok (ids, s3) => .ok (nid :: ids, s3)

/-! ### Helper lemmas about the decimal representation -/

theorem toNat_ofNat_digit (m : Nat) (h : m < 10) : (Char.ofNat (48 + m)).toNat = 48 + m := by
  interval_cases m <;> decide

theorem isDigit_ofNat_digit (m : Nat) (h : m < 10) : (Char.ofNat (48 + m)).isDigit = true := by
  interval_cases m <;> decide

theorem toDecAux_foldl :
    ∀ (fuel n : Nat) (acc : List Char), n / 10 ≤ fuel →
      (toDecAux fuel n acc).foldl pyStep 0 = acc.foldl pyStep n := by
  intro fuel
  induction fuel with
  | zero =>
    intro n acc hf
    have hn : n < 10 := by omega
    show (Char.ofNat (48 + n % 10) :: acc).foldl pyStep 0 = acc.foldl pyStep n
    simp only [List.foldl_cons, pyStep]
    rw [toNat_ofNat_digit (n % 10) (Nat.mod_lt _ (by omega))]
    congr 1
    omega
  | succ fuel ih =>
    intro n acc hf
    by_cases h : n < 10
    · show (if n < 10 then Char.ofNat (48 + n % 10) :: acc
        else toDecAux fuel (n / 10) (Char.ofNat (48 + n % 10) :: acc)).foldl pyStep 0 = _
      rw [if_pos h]
      simp only [List.foldl_cons, pyStep]
      rw [toNat_ofNat_digit (n % 10) (Nat.mod_lt _ (by omega))]
      congr 1
      omega
    · show (if n < 10 then Char.ofNat (48 + n % 10) :: acc
        else toDecAux fuel (n / 10) (Char.ofNat (48 + n % 10) :: acc)).foldl pyStep 0 = _
      rw [if_neg h]
      have hd : 0 < n / 10 := Nat.div_pos (by omega) (by omega)
      have hlt : n / 10 / 10 < n / 10 := Nat.div_lt_self hd (by omega)
      rw [ih (n / 10) _ (by omega)]
      simp only [List.foldl_cons, pyStep]
      rw [toNat_ofNat_digit (n % 10) (Nat.mod_lt _ (by omega))]
      congr 1
      omega

theorem pyInt_pyStr (n : Nat) : pyInt (pyStr n) = n := by
  show (toDecAux n n []).foldl pyStep 0 = n
  rw [toDecAux_foldl n n [] (Nat.div_le_self n 10)]
  rfl

theorem toDecAux_ne_nil : ∀ (fuel n : Nat) (acc : List Char), toDecAux fuel n acc ≠ [] := by
  intro fuel
  induction fuel with
  | zero => intro n acc; simp [toDecAux]
  | succ fuel ih =>
    intro n acc
    simp only [toDecAux]
    by_cases h : n < 10
    · rw [if_pos h]; simp
    · rw [if_neg h]; exact ih _ _

theorem toDecAux_all_digit : ∀ (fuel n : Nat) (acc : List Char),
    acc.all Char.isDigit = true → (toDecAux fuel n acc).all Char.isDigit = true := by
  intro fuel
  induction fuel with
  | zero =>
    intro n acc hacc
    simp only [toDecAux, List.all_cons, Bool.and_eq_true]
    exact ⟨isDigit_ofNat_digit _ (Nat.mod_lt _ (by omega)), hacc⟩
  | succ fuel ih =>
    intro n acc hacc
    simp only [toDecAux]
    by_cases h : n < 10
    · rw [if_pos h]
      simp only [List.all_cons, Bool.and_eq_true]
      exact ⟨isDigit_ofNat_digit _ (Nat.mod_lt _ (by omega)), hacc⟩
    · rw [if_neg h]
      refine ih _ _ ?_
      simp only [List.all_cons, Bool.and_eq_true]
      exact ⟨isDigit_ofNat_digit _ (Nat.mod_lt _ (by omega)), hacc⟩

theorem pyIsdigit_pyStr (n : Nat) : pyIsdigit (pyStr n) = true := by
  show (!(toDecAux n n []).isEmpty && (toDecAux n n []).all Char.isDigit) = true
  have h1 := toDecAux_ne_nil n n []
  have h2 := toDecAux_all_digit n n [] rfl
  cases hd : toDecAux n n [] with
  | nil => exact absurd hd h1
  | cons c cs => rw [hd] at h2; simpa using h2

theorem pyStr_ne_empty (n : Nat) : pyStr n ≠ "" := by
  intro h
  have : pyIsdigit (pyStr n) = true := pyIsdigit_pyStr n
  rw [h] at this
  simp [pyIsdigit] at this

/-! ### Helper lemmas about `pyMax` -/

theorem le_foldl_max : ∀ (xs : List Nat) (x a : Nat), a ∈ xs ∨ a ≤ x → a ≤ xs.foldl Nat.max x := by
  intro xs
  induction xs with
  | nil => intro x a h; simpa using h
  | cons y ys ih =>
    intro x a h
    simp only [List.foldl_cons]
    rcases h with h | h
    · rcases List.mem_cons.mp h with h | h
      · subst h
        exact ih _ _ (Or.inr (Nat.le_max_right x a))
      · exact ih _ _ (Or.inl h)
    · exact ih _ _ (Or.inr (le_trans h (Nat.le_max_left x y)))

theorem le_pyMax (l : List Nat) (a : Nat) (ha : a ∈ l) :
    ∃ m, pyMax l = .ok m ∧ a ≤ m := by
  cases l with
  | nil => cases ha
  | cons x xs =>
    refine ⟨xs.foldl Nat.max x, rfl, ?_⟩
    rcases List.mem_cons.mp ha with h | h
    · exact le_foldl_max xs x a (Or.inr (le_of_eq h))
    · exact le_foldl_max xs x a (Or.inl h)

/-! ### Helper lemmas about row parsing -/

theorem mem_rowsToTodos (t : Todo) :
    ∀ (rows : List (List String)) (i : Nat), t ∈ rowsToTodos rows i →
      ∃ r ∈ rows, ∃ j, t = mkTodo r j ∧ r.headD "" ≠ "" := by
  intro rows
  induction rows with
  | nil => intro i ht; cases ht
  | cons x xs ih =>
    intro i ht
    rw [rowsToTodos] at ht
    by_cases hx : x.headD "" = ""
    · rw [if_pos hx] at ht
      obtain ⟨r, hr, j, hj⟩ := ih (i + 1) ht
      exact ⟨r, List.mem_cons_of_mem _ hr, j, hj⟩
    · rw [if_neg hx] at ht
      rcases List.mem_cons.mp ht with h | h
      · exact ⟨x, List.mem_cons_self _ _, i, h, hx⟩
      · obtain ⟨r, hr, j, hj⟩ := ih (i + 1) h
        exact ⟨r, List.mem_cons_of_mem _ hr, j, hj⟩

theorem rowsToTodos_mem (r : List String) (hne : r.headD "" ≠ "") :
    ∀ (rows : List (List String)) (i : Nat), r ∈ rows →
      ∃ t ∈ rowsToTodos rows i, t.id = r.headD "" := by
  intro rows
  induction rows with
  | nil => intro i hr; cases hr
  | cons x xs ih =>
    intro i hr
    rw [rowsToTodos]
    rcases List.mem_cons.mp hr with h | h
    · subst h
      rw [if_neg hne]
      exact ⟨mkTodo r i, List.mem_cons_self _ _, rfl⟩
    · by_cases hx : x.headD "" = ""
      · rw [if_pos hx]
        exact ih (i + 1) h
      · rw [if_neg hx]
        obtain ⟨t, ht, hid⟩ := ih (i + 1) h
        exact ⟨t, List.mem_cons_of_mem _ ht, hid⟩

theorem mem_of_mem_filtered (f : Option String) (l : List Todo) (t : Todo)
    (ht : t ∈ get_all_todos_filtered f l) : t ∈ l := by
  cases f with
  | none => exact (List.mem_filter.mp ht).1
  | some s =>
    by_cases hs : s = "完了"
    · rw [get_all_todos_filtered, if_pos hs] at ht
      exact (List.mem_filter.mp ht).1
    · rwa [get_all_todos_filtered, if_neg hs] at ht

theorem filtered_all (l : List Todo) : get_all_todos_filtered (some "all") l = l := by
  rw [get_all_todos_filtered, if_neg (by decide)]

theorem get_all_todos_mem (store : List (List String)) (t : Todo)
    (ht : t ∈ get_all_todos store) :
    ∃ r ∈ store.drop 1, ∃ j, t = mkTodo r j ∧ r.headD "" ≠ "" := by
  rw [get_all_todos] at ht
  by_cases h : store.length ≤ 1
  · rw [if_pos h] at ht; cases ht
  · rw [if_neg h] at ht
    exact mem_rowsToTodos t _ 2 ht

/-! ### Helper lemmas about `add_todo` -/

theorem newId_ok_form (l : List Todo) (v : String) (h : newId l = .ok v) :
    ∃ k, v = pyStr k := by
  rw [newId] at h
  by_cases he : l.isEmpty
  · rw [if_pos he] at h
    injection h with h
    exact ⟨1, h ▸ (by decide : ("1" : String) = pyStr 1)⟩
  · rw [if_neg he] at h
    cases hm : pyMax (digit_ids l) with
    | ok m => rw [hm] at h; injection h with h; exact ⟨m + 1, h.symm⟩
    | error e => rw [hm] at h; cases h

theorem add_ok_id {s s2 : List (List String)} {t c d p ca nid : String}
    (h : add_todo s t c d p ca = .ok (nid, s2)) :
    pyIsdigit nid = true ∧ s2 = resolveStore s ++ [[nid, t, c, d, p, ca, ""]] := by
  rw [add_todo] at h
  cases hn : newId (get_all_todos_filtered (some "all") (get_all_todos (resolveStore s))) with
  | error e => rw [hn] at h; cases h
  | ok v =>
    rw [hn] at h
    injection h with h
    injection h with hv hs
    obtain ⟨k, hk⟩ := newId_ok_form _ _ hn
    subst hv
    subst hk
    exact ⟨pyIsdigit_pyStr k, hs.symm⟩

theorem resolveStore_shape (s : List (List String)) :
    ∃ y ys, resolveStore s = y :: ys := by
  cases s with
  | nil => exact ⟨_, _, rfl⟩
  | cons r rest => exact ⟨_, _, rfl⟩

theorem add_add_lt {s s2 s3 : List (List String)}
    {t1 c1 d1 p1 ca1 t2 c2 d2 p2 ca2 nid nid2 : String}
    (h1 : add_todo s t1 c1 d1 p1 ca1 = .ok (nid, s2))
    (h2 : add_todo s2 t2 c2 d2 p2 ca2 = .ok (nid2, s3)) :
    pyInt nid < pyInt nid2 := by
  obtain ⟨hdig, hs2⟩ := add_ok_id h1
  obtain ⟨y, ys, hshape⟩ := resolveStore_shape s
  rw [hshape] at hs2
  subst hs2
  -- the freshly appended row is a data row of the store seen by the second add
  have hne : (([nid, t1, c1, d1, p1, ca1, ""] : List String)).headD "" ≠ "" := by
    intro he
    rw [List.headD_cons] at he
    rw [he] at hdig
    simp [pyIsdigit] at hdig
  have hmem : ([nid, t1, c1, d1, p1, ca1, ""] : List String) ∈ ys ++ [[nid, t1, c1, d1, p1, ca1, ""]] :=
    List.mem_append.mpr (Or.inr (List.mem_singleton.mpr rfl))
  have hparse :
      get_all_todos (resolveStore (y :: ys ++ [[nid, t1, c1, d1, p1, ca1, ""]])) =
        rowsToTodos (ys ++ [[nid, t1, c1, d1, p1, ca1, ""]]) 2 := by
    show get_all_todos (repairRow1 y :: (ys ++ [[nid, t1, c1, d1, p1, ca1, ""]])) = _
    rw [get_all_todos, if_neg (by simp)]
    rfl
  obtain ⟨td, htd, hid⟩ :=
    rowsToTodos_mem _ hne (ys ++ [[nid, t1, c1, d1, p1, ca1, ""]]) 2 hmem
  rw [List.headD_cons] at hid
  rw [← hparse] at htd
  have hval : pyInt nid ∈
      digit_ids (get_all_todos (resolveStore (y :: ys ++ [[nid, t1, c1, d1, p1, ca1, ""]]))) := by
    rw [digit_ids]
    exact List.mem_map.mpr
      ⟨td, List.mem_filter.mpr ⟨htd, by rw [hid]; exact hdig⟩, by rw [hid]⟩
  obtain ⟨M, hM, hle⟩ := le_pyMax _ _ hval
  have hempty :
      (get_all_todos (resolveStore (y :: ys ++ [[nid, t1, c1, d1, p1, ca1, ""]]))).isEmpty = false := by
    cases hts : get_all_todos (resolveStore (y :: ys ++ [[nid, t1, c1, d1, p1, ca1, ""]])) with
    | nil => rw [hts] at htd; cases htd
    | cons a l => rfl
  have hnew :
      newId (get_all_todos_filtered (some "all")
          (get_all_todos (resolveStore (y :: ys ++ [[nid, t1, c1, d1, p1, ca1, ""]])))) =
        .ok (pyStr (M + 1)) := by
    rw [filtered_all, newId, hempty]
    rw [if_neg (by decide)]
    rw [hM]
  rw [add_todo, hnew] at h2
  injection h2 with h2
  injection h2 with hv hs
  rw [← hv, pyInt_pyStr]
  omega

theorem addChain_spec :
    ∀ (args : List AddArgs) (store : List (List String)) (ids : List String)
      (sf : List (List String)), addChain store args = .ok (ids, sf) →
      (∀ i ∈ ids, pyIsdigit i = true) ∧ List.Chain' (fun a b => pyInt a < pyInt b) ids := by
  intro args
  induction args with
  | nil =>
    intro store ids sf h
    rw [addChain] at h
    injection h with h
    injection h with h1 h2
    subst h1
    refine ⟨?_, List.chain'_nil⟩
    intro i hi
    cases hi
  | cons a rest ih =>
    intro store ids sf h
    rw [addChain] at h
    cases h1 : add_todo store a.title a.content a.due_date a.priority a.created_at with
    | error e => rw [h1] at h; cases h
    | ok pr =>
      obtain ⟨nid, sm⟩ := pr
      simp only [h1] at h
      cases h2 : addChain sm rest with
      | error e => simp only [h2] at h; cases h
      | ok pr2 =>
        obtain ⟨ids2, sf2⟩ := pr2
        simp only [h2] at h
        injection h with h
        injection h with hids hs
        subst hids
        obtain ⟨hdig2, hchain2⟩ := ih sm ids2 sf2 h2
        refine ⟨?_, ?_⟩
        · intro i hi
          rcases List.mem_cons.mp hi with hi | hi
          · subst hi
            exact (add_ok_id h1).1
          · exact hdig2 i hi
        · rw [List.chain'_cons']
          refine ⟨?_, hchain2⟩
          intro y hy
          cases rest with
          | nil =>
            rw [addChain] at h2
            injection h2 with h2
            injection h2 with h2a h2b
            rw [← h2a] at hy
            cases hy
          | cons b rest2 =>
            rw [addChain] at h2
            cases h3 : add_todo sm b.title b.content b.due_date b.priority b.created_at with
            | error e => rw [h3] at h2; cases h2
            | ok pr3 =>
              obtain ⟨nid3, s4⟩ := pr3
              simp only [h3] at h2
              cases h4 : addChain s4 rest2 with
              | error e => simp only [h4] at h2; cases h2
              | ok pr4 =>
                obtain ⟨ids4, s5⟩ := pr4
                simp only [h4] at h2
                injection h2 with h2
                injection h2 with h2a h2b
                rw [← h2a] at hy
                rw [List.head?_cons] at hy
                have hyn : nid3 = y := by
                  simpa [Option.mem_def] using hy
                subst hyn
                exact add_add_lt h1 h3

/-! ### Claim theorems -/

/-- Claim C1 (code bug): on a store whose only data row has the non-numeric id
`"abc"`, `add_todo` evaluates `max()` over an empty sequence and raises a
`ValueError` instead of ignoring the non-numeric id: the new-id computation
does crash when every existing task's id is non-numeric, contradicting the
spec's "must not crash the computation". -/
theorem add_todo_raises_when_all_ids_nonnumeric :
    add_todo [SCHEMA, ["abc", "task", "", "", "中", "2025-01-01 00:00:00", ""]]
        "new" "" "" "中" "2025-01-02 00:00:00" =
      .error "max() arg is an empty sequence" := by
  rfl

/-- Claim C2: for every sequence of `add` operations from any backing-store
content, the assigned ids are decimal-digit strings whose numeric values are
strictly increasing, and the first add on an empty store assigns `"1"`. -/
theorem add_ids_strictly_increasing :
    (∀ (args : List AddArgs) (store ids sf),
        addChain store args = .ok (ids, sf) →
        (∀ i ∈ ids, pyIsdigit i = true) ∧
          List.Chain' (fun a b => pyInt a < pyInt b) ids) ∧
      (∀ a : AddArgs, addChain [] [a] =
        .ok (["1"], [SCHEMA, ["1", a.title, a.content, a.due_date, a.priority, a.created_at, ""]])) :=
  ⟨addChain_spec, fun _ => rfl⟩

/-- Witness for C2: a concrete two-add run from the empty store yields the
ids `["1", "2"]`, which are digit strings with strictly increasing values. -/
theorem add_ids_strictly_increasing_witness :
    (∀ i ∈ ["1", "2"], pyIsdigit i = true) ∧
      List.Chain' (fun a b => pyInt a < pyInt b) ["1", "2"] :=
  add_ids_strictly_increasing.1 [⟨"a", "", "", "中", "t1"⟩, ⟨"b", "", "", "高", "t2"⟩] []
    ["1", "2"]
    [SCHEMA, ["1", "a", "", "", "中", "t1", ""], ["2", "b", "", "", "高", "t2", ""]]
    (by rfl)

/-- Claim C5: schema resolution on a header that already equals the correct
7-column schema issues no write and leaves the header content identical. -/
theorem repair_idempotent_on_correct_header :
    repairWrites SCHEMA = [] ∧ repairedHeader SCHEMA = SCHEMA := by
  exact ⟨rfl, rfl⟩

/-- Claim C3 counterexample: a row whose id cell holds the non-numeric
string `"abc"` is NOT excluded from the read result: `get_all_todos` returns
a task with that id, refuting the claim that non-numeric ids are excluded
from every read. -/
theorem nonnumeric_id_included_in_reads :
    (get_all_todos [SCHEMA, ["abc", "t", "", "", "中", "", ""]]).map Todo.id = ["abc"] ∧
      pyIsdigit "abc" = false := by
  exact ⟨rfl, rfl⟩

/-- Claim C3 amended: a row whose id cell is empty (or an entirely empty row)
is excluded from `list_all` and from every filtered variant, but a row whose
id cell is a nonempty string — numeric or not — produces a task in the read
result. -/
theorem empty_id_excluded_nonempty_included :
    ∀ (store : List (List String)) (f : Option String) (t : Todo) (r : List String),
      (t ∈ get_all_todos_filtered f (get_all_todos store) → t.id ≠ "") ∧
      (r ∈ store.drop 1 → 2 ≤ store.length → r.headD "" ≠ "" →
        ∃ u ∈ get_all_todos store, u.id = r.headD "") := by
  intro store f t r
  constructor
  · intro ht
    obtain ⟨rr, hrr, j, htj, hne⟩ := get_all_todos_mem store t (mem_of_mem_filtered f _ t ht)
    rw [htj]
    exact hne
  · intro hr hlen hne
    have hstore : get_all_todos store = rowsToTodos (store.drop 1) 2 := by
      rw [get_all_todos, if_neg (by omega)]
    rw [hstore]
    exact rowsToTodos_mem r hne _ 2 hr

/-- Witness for the amended C3 at a concrete store: the task parsed from the
row with id `"5"` has a nonempty id, and the row yields a task in the read. -/
theorem empty_id_excluded_witness :
    (⟨"5", 2, "t", "", "", "中", "", ""⟩ : Todo).id ≠ "" ∧
      ∃ u ∈ get_all_todos [SCHEMA, ["5", "t", "", "", "中", "", ""]],
        u.id = (["5", "t", "", "", "中", "", ""] : List String).headD "" :=
  ⟨(empty_id_excluded_nonempty_included [SCHEMA, ["5", "t", "", "", "中", "", ""]] (some "all")
        ⟨"5", 2, "t", "", "", "中", "", ""⟩ ["5", "t", "", "", "中", "", ""]).1 (by decide),
    (empty_id_excluded_nonempty_included [SCHEMA, ["5", "t", "", "", "中", "", ""]] (some "all")
        ⟨"5", 2, "t", "", "", "中", "", ""⟩ ["5", "t", "", "", "中", "", ""]).2
      (by decide) (by decide) (by decide)⟩

/-- Claim C4 counterexample: a 7-cell header whose first cell is `"ID"` but
whose remaining cells are wrong is left entirely untouched by schema repair
(the column-by-column patching at lines 155-160 is unreachable), so the
header does not match the 7-column schema after resolution. -/
theorem header_untouched_when_first_cell_id :
    repairWrites ["ID", "a", "b", "c", "d", "e", "f"] = [] ∧
      repairedHeader ["ID", "a", "b", "c", "d", "e", "f"] = ["ID", "a", "b", "c", "d", "e", "f"] ∧
      ["ID", "a", "b", "c", "d", "e", "f"] ≠ SCHEMA := by
  exact ⟨rfl, rfl, by decide⟩

/-- Claim C4 amended: schema resolution produces exactly the 7-column schema
whenever the as-read header has at most 5 cells (including an absent header)
or exactly 7 cells with a first cell other than `"ID"`; headers of length 6
only get columns E and G patched, and headers of length ≥ 7 starting with
`"ID"` are left untouched, so those are not repaired to the schema. -/
theorem header_repaired_exact_cases (h : List String)
    (hc : h.length ≤ 5 ∨ (h.length = 7 ∧ h.headD "" ≠ "ID")) :
    repairedHeader h = SCHEMA := by
  rcases hc with hc | ⟨h7, hid⟩
  · cases h with
    | nil => rfl
    | cons x xs =>
      rw [repairedHeader, repairWrites]
      rw [if_neg (by simp)]
      rw [if_pos (Or.inr (by omega))]
      rw [if_pos (by omega)]
      by_cases h5 : (x :: xs).length < 5
      · rw [if_pos h5]
        show SCHEMA ++ (x :: xs).drop 7 = SCHEMA
        rw [List.drop_eq_nil_of_le (by omega)]
        rfl
      · rw [if_neg h5, if_pos (by omega)]
        show SCHEMA ++ (x :: xs).drop 7 = SCHEMA
        rw [List.drop_eq_nil_of_le (by omega)]
        rfl
  · have hnil : h.isEmpty = false := by
      cases h with
      | nil => simp at h7
      | cons x xs => rfl
    rw [repairedHeader, repairWrites, hnil]
    rw [if_neg (by decide)]
    rw [if_pos (Or.inl hid)]
    rw [if_neg (by omega)]
    rw [if_pos hid]
    show SCHEMA ++ h.drop 7 = SCHEMA
    rw [List.drop_eq_nil_of_le (by omega)]
    rfl

/-- Witness for the amended C4: a legacy 4-column header is rewritten to the
full 7-column schema. -/
theorem header_repaired_exact_cases_witness :
    repairedHeader ["ID", "タイトル", "内容", "期日"] = SCHEMA :=
  header_repaired_exact_cases ["ID", "タイトル", "内容", "期日"] (Or.inl (by decide))

/-- Claim C6: for every backing-store content, the open and completed filter
results are disjoint and together give exactly the all result: a task is in
the completed result iff its status is exactly `"完了"`, and in the open
result iff its status is anything else. -/
theorem filtered_partition :
    ∀ (store : List (List String)) (t : Todo),
      ((t ∈ get_all_todos_filtered none (get_all_todos store) ∨
          t ∈ get_all_todos_filtered (some "完了") (get_all_todos store)) ↔
        t ∈ get_all_todos_filtered (some "all") (get_all_todos store)) ∧
      ¬(t ∈ get_all_todos_filtered none (get_all_todos store) ∧
          t ∈ get_all_todos_filtered (some "完了") (get_all_todos store)) ∧
      (t ∈ get_all_todos_filtered (some "完了") (get_all_todos store) ↔
        t ∈ get_all_todos store ∧ t.status = "完了") ∧
      (t ∈ get_all_todos_filtered none (get_all_todos store) ↔
        t ∈ get_all_todos store ∧ t.status ≠ "完了") := by
  intro store t
  rw [filtered_all]
  simp only [get_all_todos_filtered, List.mem_filter, if_pos]
  by_cases hst : t.status = "完了" <;> simp [hst]

/-- Witness for C6 at a concrete store and task. -/
theorem filtered_partition_witness :
    ((⟨"1", 2, "t", "", "", "中", "", "完了"⟩ ∈
          get_all_todos_filtered none (get_all_todos [SCHEMA, ["1", "t", "", "", "中", "", "完了"]]) ∨
        (⟨"1", 2, "t", "", "", "中", "", "完了"⟩ : Todo) ∈
          get_all_todos_filtered (some "完了")
            (get_all_todos [SCHEMA, ["1", "t", "", "", "中", "", "完了"]])) ↔
      (⟨"1", 2, "t", "", "", "中", "", "完了"⟩ : Todo) ∈
        get_all_todos_filtered (some "all")
          (get_all_todos [SCHEMA, ["1", "t", "", "", "中", "", "完了"]])) ∧
    ¬((⟨"1", 2, "t", "", "", "中", "", "完了"⟩ : Todo) ∈
          get_all_todos_filtered none (get_all_todos [SCHEMA, ["1", "t", "", "", "中", "", "完了"]]) ∧
        (⟨"1", 2, "t", "", "", "中", "", "完了"⟩ : Todo) ∈
          get_all_todos_filtered (some "完了")
            (get_all_todos [SCHEMA, ["1", "t", "", "", "中", "", "完了"]])) ∧
    ((⟨"1", 2, "t", "", "", "中", "", "完了"⟩ : Todo) ∈
        get_all_todos_filtered (some "完了")
          (get_all_todos [SCHEMA, ["1", "t", "", "", "中", "", "完了"]]) ↔
      (⟨"1", 2, "t", "", "", "中", "", "完了"⟩ : Todo) ∈
          get_all_todos [SCHEMA, ["1", "t", "", "", "中", "", "完了"]] ∧
        (⟨"1", 2, "t", "", "", "中", "", "完了"⟩ : Todo).status = "完了") ∧
    ((⟨"1", 2, "t", "", "", "中", "", "完了"⟩ : Todo) ∈
        get_all_todos_filtered none (get_all_todos [SCHEMA, ["1", "t", "", "", "中", "", "完了"]]) ↔
      (⟨"1", 2, "t", "", "", "中", "", "完了"⟩ : Todo) ∈
          get_all_todos [SCHEMA, ["1", "t", "", "", "中", "", "完了"]] ∧
        (⟨"1", 2, "t", "", "", "中", "", "完了"⟩ : Todo).status ≠ "完了") :=
  filtered_partition [SCHEMA, ["1", "t", "", "", "中", "", "完了"]]
    ⟨"1", 2, "t", "", "", "中", "", "完了"⟩

/-- Claim C7 counterexample: a stored priority value that is none of
高/中/低 is passed through unchanged by the read path instead of being
defaulted to `"中"`, so a returned task's priority is not always one of the
three allowed values. -/
theorem malformed_priority_passed_through :
    (get_all_todos [SCHEMA, ["1", "t", "", "", "banana", "", ""]]).map Todo.priority =
        ["banana"] ∧
      ("banana" ≠ "高" ∧ "banana" ≠ "中" ∧ "banana" ≠ "低") := by
  exact ⟨rfl, by decide⟩

/-- Claim C7 amended: the priority of a returned task is the raw cell value
whenever its row has at least 5 cells (even a malformed value is kept), and
defaults to `"中"` exactly when the row is shorter than 5 cells. -/
theorem priority_default_only_when_absent :
    ∀ (store : List (List String)) (t : Todo), t ∈ get_all_todos store →
      ∃ r ∈ store.drop 1, t.id = r.headD "" ∧ t.priority = r.getD 4 "中" ∧
        (r.length ≤ 4 → t.priority = "中") := by
  intro store t ht
  obtain ⟨r, hr, j, htj, hne⟩ := get_all_todos_mem store t ht
  refine ⟨r, hr, ?_, ?_, ?_⟩
  · rw [htj]
    rfl
  · rw [htj]
    rfl
  · intro h4
    rw [htj]
    show r.getD 4 "中" = "中"
    exact List.getD_eq_default _ _ (by omega)

/-- Witness for the amended C7: a 2-cell row yields priority `"中"`. -/
theorem priority_default_only_when_absent_witness :
    ∃ r ∈ ([SCHEMA, ["7", "t"]] : List (List String)).drop 1,
      (⟨"7", 2, "t", "", "", "中", "", ""⟩ : Todo).id = r.headD "" ∧
      (⟨"7", 2, "t", "", "", "中", "", ""⟩ : Todo).priority = r.getD 4 "中" ∧
      (r.length ≤ 4 → (⟨"7", 2, "t", "", "", "中", "", ""⟩ : Todo).priority = "中") :=
  priority_default_only_when_absent [SCHEMA, ["7", "t"]]
    ⟨"7", 2, "t", "", "", "中", "", ""⟩ (by decide)

/-! ### Error propagation on the read path (claim C8)

`get_all_todos` calls `get_or_create_spreadsheet()` on line 209, OUTSIDE the
`try` block that starts on line 211; the `except` on line 251 only covers the
fetch/parse of the worksheet values.  The model below reflects that control
flow: a resolution failure propagates, a fetch failure is swallowed. -/

/-- Outcome of `worksheet.get_all_values()`: the cell matrix, or an
`APIError`/`IndexError` raised while fetching. -/
inductive FetchResult where
  | ok (vals : List (List String))
  | apiError (msg : String)

/-- `get_all_todos` on a cold cache, with the store-resolution outcome and
the fetch outcome made explicit: resolution errors (raised on line 209,
before the `try`) propagate; fetch errors are caught and turn into `[]`. -/
def get_all_todos_run (resolution : Except String Unit) (fetch : FetchResult) :
    Except String (List Todo) :=
  match resolution with
  | .error e => .error e
  | .ok _ =>
    match fetch with
    | .apiError _ => .ok []
    | .ok vals => .ok (get_all_todos vals)

/-- Claim C8 counterexample: a failure in the store-resolution step (for
example a missing spreadsheet id) propagates out of `get_all_todos` instead
of being logged and turned into an empty list. -/
theorem resolution_error_propagates :
    get_all_todos_run (.error "SPREADSHEET_ID is not set") (.ok [SCHEMA]) =
        .error "SPREADSHEET_ID is not set" ∧
      (Except.error "SPREADSHEET_ID is not set" ≠
        (Except.ok [] : Except String (List Todo))) := by
  exact ⟨rfl, by simp⟩

/-- Claim C8 amended: failures raised while fetching the rows (the part
inside the `try`) are swallowed and produce an empty list, but failures in
the store-resolution step propagate to the caller. -/
theorem fetch_error_swallowed_resolution_raises :
    ∀ (m e : String) (fetch : FetchResult),
      get_all_todos_run (.ok ()) (.apiError m) = .ok [] ∧
      get_all_todos_run (.error e) fetch = .error e := by
  intro m e fetch
  exact ⟨rfl, rfl⟩

/-- Witness for the amended C8 at concrete arguments. -/
theorem fetch_error_swallowed_witness :
    get_all_todos_run (.ok ()) (.apiError "APIError: quota") = .ok [] ∧
      get_all_todos_run (.error "boom") (.ok []) = .error "boom" :=
  fetch_error_swallowed_resolution_raises "APIError: quota" "boom" (.ok [])

/-! ### The read cache and aliasing (claim C9)

Python dicts and lists are heap objects.  `get_all_todos` returns
`_todos_cache.copy()` on a cache hit (line 206) — a new list object sharing
the task dicts — but on a miss it stores `todos` in `_todos_cache` and
returns the very same list object (lines 247-250).  The heap model below
makes object identity explicit: task dicts live in `records`, list objects
in `lists`, and the cache holds the address of a list object. -/

/-- The default value used when dereferencing an address out of range. -/
def emptyTodo : Todo :=
  { id := "", row := 0, title := "", content := "", due_date := "", priority := "",
    created_at := "", status := "" }

/-- The Python heap: task dicts and list objects, addressed by index. -/
structure PyHeap where
  records : List Todo
  lists : List (List Nat)
deriving DecidableEq, Repr

/-- The module state relevant to the read cache: the heap plus
`_todos_cache` (the address of a list object, or `None`). -/
structure CacheState where
  heap : PyHeap
  cacheAddr : Option Nat
deriving DecidableEq, Repr

/-- Allocate a new list object; returns its address. -/
def allocList (h : PyHeap) (c : List Nat) : PyHeap × Nat :=
  ({ h with lists := h.lists ++ [c] }, h.lists.length)

/-- Allocate one task dict per entry; returns their addresses in order. -/
def allocRecords (h : PyHeap) (ts : List Todo) : PyHeap × List Nat :=
  ({ h with records := h.records ++ ts },
    (List.range ts.length).map (fun i => h.records.length + i))

/-- `get_all_todos` acting on the heap: on a warm cache
(`cacheFresh = true` models `now - _cache_timestamp < CACHE_DURATION`) it
returns a fresh copy of the cached list object (same task dicts); on a miss
it parses the store, allocates the dicts and the list, stores that list's
address in the cache and returns THE SAME address. -/
def get_all_todos_stateful (s : CacheState) (cacheFresh : Bool) (store : List (List String)) :
    CacheState × Nat :=
  match s.cacheAddr, cacheFresh with
  | some a, true =>
    let copied := allocList s.heap (s.heap.lists.getD a [])
    ({ s with heap := copied.1 }, copied.2)
  | _, _ =>
    if store.length ≤ 1 then
      let fresh := allocList s.heap []
      ({ s with heap := fresh.1 }, fresh.2)
    else
      let arec := allocRecords s.heap (get_all_todos store)
      let alst := allocList arec.1 arec.2
      ({ heap := alst.1, cacheAddr := some alst.2 }, alst.2)

/-- A caller mutating the list object at address `a` in place
(e.g. `todos.clear()` or `todos.append(...)`). -/
def mutateList (s : CacheState) (a : Nat) (f : List Nat → List Nat) : CacheState :=
  { s with heap :=
      { s.heap with lists := s.heap.lists.set a (f (s.heap.lists.getD a [])) } }

/-- The task data currently reachable through `_todos_cache`. -/
def cacheView (s : CacheState) : Option (List Todo) :=
  s.cacheAddr.map (fun a =>
    (s.heap.lists.getD a []).map (fun r => s.heap.records.getD r emptyTodo))

theorem getD_set_ne {α : Type} (v d : α) :
    ∀ (l : List α) (i j : Nat), i ≠ j → (l.set i v).getD j d = l.getD j d := by
  intro l
  induction l with
  | nil => intro i j hij; rfl
  | cons x xs ih =>
    intro i j hij
    cases i with
    | zero =>
      cases j with
      | zero => exact absurd rfl hij
      | succ j => rfl
    | succ i =>
      cases j with
      | zero => rfl
      | succ j =>
        show (xs.set i v).getD j d = xs.getD j d
        exact ih i j (fun hh => hij (by rw [hh]))

/-- Claim C9 counterexample: on a cold cache the fresh fetch stores the
returned list object itself in `_todos_cache`; a caller that then empties
the returned list also empties the cached data, so a later cached read
returns the caller's mutation instead of the original data. -/
theorem fresh_fetch_alias_corrupts_cache :
    cacheView ((get_all_todos_stateful ⟨⟨[], []⟩, none⟩ true
          [SCHEMA, ["1", "milk", "", "", "中", "", ""]]).1) =
        some [⟨"1", 2, "milk", "", "", "中", "", ""⟩] ∧
      cacheView (mutateList
          (get_all_todos_stateful ⟨⟨[], []⟩, none⟩ true
            [SCHEMA, ["1", "milk", "", "", "中", "", ""]]).1
          (get_all_todos_stateful ⟨⟨[], []⟩, none⟩ true
            [SCHEMA, ["1", "milk", "", "", "中", "", ""]]).2
          (fun _ => [])) = some [] := by
  exact ⟨rfl, rfl⟩

/-- Claim C9 amended: only the warm-cache path is protected, and only at the
list level: a cache hit returns a fresh list object, so mutating the
RETURNED LIST there leaves the cached list unchanged (the task dicts are
still shared, and the fresh-fetch path returns the cached list itself). -/
theorem warm_copy_protects_cached_list (s : CacheState) (store : List (List String))
    (a : Nat) (f : List Nat → List Nat)
    (ha : s.cacheAddr = some a) (hlt : a < s.heap.lists.length) :
    cacheView (mutateList (get_all_todos_stateful s true store).1
        (get_all_todos_stateful s true store).2 f) =
      cacheView (get_all_todos_stateful s true store).1 := by
  obtain ⟨⟨recs, lsts⟩, ca⟩ := s
  simp only at ha hlt
  subst ha
  simp only [get_all_todos_stateful, allocList, mutateList, cacheView, Option.map_some']
  have hne : lsts.length ≠ a := by omega
  rw [getD_set_ne _ _ _ _ _ hne]

/-- Witness for the amended C9: a concrete warm-cache read followed by a
list-level mutation of the returned copy leaves the cached view unchanged. -/
theorem warm_copy_protects_witness :
    cacheView (mutateList (get_all_todos_stateful ⟨⟨[emptyTodo], [[0]]⟩, some 0⟩ true []).1
        (get_all_todos_stateful ⟨⟨[emptyTodo], [[0]]⟩, some 0⟩ true []).2 (fun _ => [])) =
      cacheView (get_all_todos_stateful ⟨⟨[emptyTodo], [[0]]⟩, some 0⟩ true []).1 :=
  warm_copy_protects_cached_list ⟨⟨[emptyTodo], [[0]]⟩, some 0⟩ [] 0 (fun _ => []) rfl
    (by decide)

/-! ### The due-date sort of the listing view (claim C10) -/

/-- `priority_order.get(x.get("priority", "中"), 2)` from `app.py` line 66/73:
高 ↦ 3, 中 ↦ 2, 低 ↦ 1, any other stored value ↦ 2. -/
def priority_order (p : String) : Nat :=
  if p = "高" then 3 else if p = "中" then 2 else if p = "低" then 1 else 2

/-- `x.get("due_date") or "9999-12-31"` (`app.py` line 73): an empty due
date becomes a far-future sentinel. -/
def dueKey (t : Todo) : String :=
  if t.due_date = "" then "9999-12-31" else t.due_date

/-- Lexicographic strict comparison of character lists by code point — the
comparison Python uses on strings; a proper prefix is smaller. -/
def charListLt : List Char → List Char → Bool
  | _, [] => false
  | [], _ :: _ => true
  | c :: cs, d :: ds =>
    if c < d then true else if d < c then false else charListLt cs ds

/-- Python `<` on strings. -/
def pyStrLt (a b : String) : Bool :=
  charListLt a.data b.data

theorem charListLt_trichotomy :
    ∀ xs ys : List Char, charListLt xs ys = true ∨ xs = ys ∨ charListLt ys xs = true := by
  intro xs
  induction xs with
  | nil =>
    intro ys
    cases ys with
    | nil => exact Or.inr (Or.inl rfl)
    | cons d ds => exact Or.inl rfl
  | cons c cs ih =>
    intro ys
    cases ys with
    | nil => exact Or.inr (Or.inr rfl)
    | cons d ds =>
      rcases lt_trichotomy c d with h | h | h
      · left
        simp [charListLt, h]
      · subst h
        rcases ih ds with h2 | h2 | h2
        · left
          simp [charListLt, lt_irrefl, h2]
        · right
          left
          rw [h2]
        · right
          right
          simp [charListLt, lt_irrefl, h2]
      · right
        right
        simp [charListLt, h]

theorem charListLt_trans :
    ∀ xs ys zs : List Char, charListLt xs ys = true → charListLt ys zs = true →
      charListLt xs zs = true := by
  intro xs
  induction xs with
  | nil =>
    intro ys zs h1 h2
    cases ys with
    | nil => cases h1
    | cons d ds =>
      cases zs with
      | nil => cases h2
      | cons e es => rfl
  | cons c cs ih =>
    intro ys zs h1 h2
    cases ys with
    | nil => cases h1
    | cons d ds =>
      cases zs with
      | nil => cases h2
      | cons e es =>
        simp only [charListLt] at h1 h2 ⊢
        by_cases hcd : c < d
        · by_cases hde : d < e
          · rw [if_pos (lt_trans hcd hde)]
          · rw [if_neg hde] at h2
            by_cases hed : e < d
            · rw [if_pos hed] at h2
              cases h2
            · have hdeq : d = e := by
                rcases lt_trichotomy d e with h | h | h
                · exact absurd h hde
                · exact h
                · exact absurd h hed
              rw [if_pos (hdeq ▸ hcd)]
        · rw [if_neg hcd] at h1
          by_cases hdc : d < c
          · rw [if_pos hdc] at h1
            cases h1
          · rw [if_neg hdc] at h1
            have hceq : c = d := by
              rcases lt_trichotomy c d with h | h | h
              · exact absurd h hcd
              · exact h
              · exact absurd h hdc
            subst hceq
            by_cases hce : c < e
            · rw [if_pos hce]
            · rw [if_neg hce] at h2 ⊢
              by_cases hec : e < c
              · rw [if_pos hec] at h2
                cases h2
              · rw [if_neg hec] at h2 ⊢
                exact ih ds es h1 h2

theorem pyStrLt_trichotomy (a b : String) :
    pyStrLt a b = true ∨ a = b ∨ pyStrLt b a = true := by
  rcases charListLt_trichotomy a.data b.data with h | h | h
  · exact Or.inl h
  · refine Or.inr (Or.inl ?_)
    cases a
    cases b
    exact congrArg String.mk h
  · exact Or.inr (Or.inr h)

theorem pyStrLt_trans (a b c : String) (h1 : pyStrLt a b = true) (h2 : pyStrLt b c = true) :
    pyStrLt a c = true :=
  charListLt_trans a.data b.data c.data h1 h2

/-- The ascending comparison induced by the sort key
`(due-date-or-sentinel, priority-number)` of `app.py` line 73
(`reverse=False`, so the tuple is compared lexicographically ascending,
strings by Python string comparison). -/
def dueLE (a b : Todo) : Prop :=
  pyStrLt (dueKey a) (dueKey b) = true ∨
    (dueKey a = dueKey b ∧ priority_order a.priority ≤ priority_order b.priority)

instance decDueLE : DecidableRel dueLE := fun a b =>
  inferInstanceAs (Decidable (pyStrLt (dueKey a) (dueKey b) = true ∨
    (dueKey a = dueKey b ∧ priority_order a.priority ≤ priority_order b.priority)))

instance totalDueLE : IsTotal Todo dueLE := by
  constructor
  intro a b
  rcases pyStrLt_trichotomy (dueKey a) (dueKey b) with h | h | h
  · exact Or.inl (Or.inl h)
  · rcases Nat.le_total (priority_order a.priority) (priority_order b.priority) with hp | hp
    · exact Or.inl (Or.inr ⟨h, hp⟩)
    · exact Or.inr (Or.inr ⟨h.symm, hp⟩)
  · exact Or.inr (Or.inl h)

instance transDueLE : IsTrans Todo dueLE := by
  constructor
  intro a b c hab hbc
  rcases hab with hab | ⟨hab, hpab⟩
  · rcases hbc with hbc | ⟨hbc, hp⟩
    · exact Or.inl (pyStrLt_trans _ _ _ hab hbc)
    · exact Or.inl (by rw [← hbc]; exact hab)
  · rcases hbc with hbc | ⟨hbc, hpbc⟩
    · exact Or.inl (by rw [hab]; exact hbc)
    · exact Or.inr ⟨hab.trans hbc, le_trans hpab hpbc⟩

/-- `todos.sort(key=lambda x: (x.get("due_date") or "9999-12-31",
priority_order.get(...)), reverse=False)`: Python's stable ascending sort,
modelled as stable insertion sort under `dueLE`. -/
def sort_by_due_date (ts : List Todo) : List Todo :=
  List.insertionSort dueLE ts

/-- Claim C10 counterexample: two tasks with the same due date come out with
the LOW-priority one first — the priority number is part of the ascending
key, so ties are broken by priority ascending, not descending as claimed. -/
theorem due_sort_tie_low_priority_first :
    sort_by_due_date [⟨"1", 2, "a", "", "2025-01-01", "高", "", ""⟩,
        ⟨"2", 3, "b", "", "2025-01-01", "低", "", ""⟩] =
      [⟨"2", 3, "b", "", "2025-01-01", "低", "", ""⟩,
        ⟨"1", 2, "a", "", "2025-01-01", "高", "", ""⟩] ∧
    dueKey ⟨"1", 2, "a", "", "2025-01-01", "高", "", ""⟩ =
        dueKey ⟨"2", 3, "b", "", "2025-01-01", "低", "", ""⟩ ∧
    priority_order "低" < priority_order "高" := by
  refine ⟨?_, rfl, by decide⟩
  rfl

/-- Claim C10 amended: the due-date sort orders tasks ascending by due date
with empty due dates replaced by the sentinel `"9999-12-31"` (hence placed
after every earlier date), and breaks due-date ties by priority ASCENDING
(low before medium before high); the result is sorted under that comparison
and is a permutation of the input. -/
theorem due_sort_sorted_perm :
    ∀ ts : List Todo, List.Sorted dueLE (sort_by_due_date ts) ∧
      List.Perm (sort_by_due_date ts) ts ∧
      ∀ t : Todo, t.due_date = "" → dueKey t = "9999-12-31" := by
  intro ts
  refine ⟨List.sorted_insertionSort dueLE ts, List.perm_insertionSort dueLE ts, ?_⟩
  intro t ht
  rw [dueKey, if_pos ht]

/-- Witness for the amended C10 at a concrete one-task list. -/
theorem due_sort_sorted_perm_witness :
    List.Sorted dueLE (sort_by_due_date [⟨"1", 2, "a", "", "", "高", "", ""⟩]) ∧
      List.Perm (sort_by_due_date [⟨"1", 2, "a", "", "", "高", "", ""⟩])
        [⟨"1", 2, "a", "", "", "高", "", ""⟩] ∧
      ∀ t : Todo, t.due_date = "" → dueKey t = "9999-12-31" :=
  due_sort_sorted_perm [⟨"1", 2, "a", "", "", "高", "", ""⟩]

end TodoSheets
